import Mathlib

/-!
Verification development for the BouleAI LLM-council deliberation engine.

The Python services are shallowly embedded as pure Lean functions.  Network
and scheduler effects are made explicit: every `asyncio.gather` over provider
calls is represented by the list of gathered per-call results (a plain string
or a captured exception), in input order, exactly as `return_exceptions=True`
delivers them; the provider clients' single HTTP attempts are represented by
an oracle `Nat → AttemptOutcome` giving the outcome of each attempt.
-/

namespace Boule

/-! ## Character and string primitives

The Python string operations used by the services (`startswith`, `in`,
`lower`, `strip`, `split`) are modelled on `List Char`.  Whitespace is the
ASCII whitespace set, on which Python's `str.strip` and the regex class
`\s` agree.
-/

/-- The backtick character, written via its code point. -/
def btick : Char := Char.ofNat 96

/-- Three backticks: the fence marker as a character list. -/
def triBT : List Char := [btick, btick, btick]

/-- ASCII whitespace: models both Python `str.strip`'s and the regex `\s`
whitespace set (they coincide on ASCII). -/
def isWSChar (c : Char) : Bool :=
  c == ' ' || c == '\t' || c == '\n' || c == '\r' || c == '\x0b' || c == '\x0c'

/-- Boolean list-prefix test (first argument is the pattern). -/
def isPrefixCL : List Char → List Char → Bool
  | [], _ => true
  | _ :: _, [] => false
  | a :: as, b :: bs => a == b && isPrefixCL as bs

/-- Python `pat in s` on character lists: some suffix of `s` starts with `pat`. -/
def containsCL (pat : List Char) : List Char → Bool
  | [] => isPrefixCL pat []
  | s@(_ :: rest) => isPrefixCL pat s || containsCL pat rest

/-- Python `s.startswith(p)`. -/
def startsWithStr (s p : String) : Bool := isPrefixCL p.data s.data

/-- Python `p in s` (substring containment). -/
def strContains (s p : String) : Bool := containsCL p.data s.data

/-- Python `s.lower()` (ASCII case folding, which is all the services rely on). -/
def lowerStr (s : String) : String := ⟨s.data.map Char.toLower⟩

/-- Python `s.strip()` on character lists. -/
def stripCL (l : List Char) : List Char :=
  ((l.dropWhile isWSChar).reverse.dropWhile isWSChar).reverse

/-- Python `s.strip()`. -/
def pyStrip (s : String) : String := ⟨stripCL s.data⟩

/-- Split on a single separator character; Python `s.split(sep)` for a
one-character separator.  Always returns a non-empty list of parts. -/
def splitOnCharAux (sep : Char) : List Char → List Char → List (List Char)
  | [], acc => [acc.reverse]
  | c :: cs, acc =>
    if c == sep then acc.reverse :: splitOnCharAux sep cs []
    else splitOnCharAux sep cs (c :: acc)

/-! ## Data model (`models/schemas.py`) -/

/-- `ModelConfig`: a (provider, model) pair. -/
structure ModelConfig where
  provider : String
  model : String
deriving Repr, DecidableEq

/-- `Stage1Opinion`. -/
structure Stage1Opinion where
  model_id : String
  provider : String
  short_name : String
  response : String
  succeeded : Bool
  response_id : Nat
deriving Repr, DecidableEq

/-- `RankingItem`; `score_total` is a float, modelled as a rational. -/
structure RankingItem where
  response_id : Int
  score_total : ℚ
deriving Repr, DecidableEq

/-- `DetailedScore`; the three sub-scores are pydantic-constrained to 0..10. -/
structure DetailedScore where
  response_id : Int
  accuracy : Int
  insight : Int
  logic : Int
  critique : String
deriving Repr, DecidableEq

/-- `Stage2Review`. -/
structure Stage2Review where
  reviewer_model_id : String
  reviewer_provider : String
  rankings : List RankingItem
  detailed_scores : List DetailedScore
  succeeded : Bool
deriving Repr, DecidableEq

/-- One slot of an `asyncio.gather(..., return_exceptions=True)` result:
either the string the call returned, or the exception object it raised. -/
inductive GatherResult where
  | str (s : String)
  | exn
deriving Repr, DecidableEq

def dummyConfig : ModelConfig := ⟨"", ""⟩

def dummyReview : Stage2Review := ⟨"", "", [], [], false⟩

def dummyOpinion : Stage1Opinion := ⟨"", "", "", "", false, 0⟩

def dummyResult : GatherResult := .exn

/-! ## Stage 1 (`services/council_service.py`, `generate_opinions`) -/

/-- `config.model.split("/")[-1].split(":")[0]` from `generate_opinions`. -/
def shortName (model : String) : String :=
  ⟨(splitOnCharAux ':' ((splitOnCharAux '/' model.data []).getLastD []) []).headD []⟩

/-- The loop body of `generate_opinions` for 1-based index `i`: converts one
gathered result into a `Stage1Opinion`.  An exception becomes a fallback
text and `succeeded=False`; a string result is kept, and `succeeded` is
cleared exactly when it starts with `[` and its lower-casing contains
`failed`. -/
def mkOpinion (i : Nat) (config : ModelConfig) (result : GatherResult) : Stage1Opinion :=
  match result with
  | .exn =>
    { model_id := config.model
      provider := config.provider
      short_name := shortName config.model
      response := "[" ++ config.model ++ " failed to generate an opinion]"
      succeeded := false
      response_id := i }
  | .str s =>
    { model_id := config.model
      provider := config.provider
      short_name := shortName config.model
      response := s
      succeeded := !(startsWithStr s "[" && strContains (lowerStr s) "failed")
      response_id := i }

/-- The `for i, (config, result) in enumerate(zip(model_list, raw_results), start=1)`
loop of `generate_opinions`, starting at index `i`. -/
def opinionsFrom (i : Nat) : List ModelConfig → List GatherResult → List Stage1Opinion
  | [], _ => []
  | _ :: _, [] => []
  | c :: cs, r :: rs => mkOpinion i c r :: opinionsFrom (i + 1) cs rs

/-- Stage 1, `generate_opinions`: the prompt and sampling parameters only
feed the provider calls, whose gathered outcomes are `raw_results` (one per
model, in input order, as `asyncio.gather` guarantees). -/
def generate_opinions (model_list : List ModelConfig) (raw_results : List GatherResult) :
    List Stage1Opinion :=
  opinionsFrom 1 model_list raw_results

/-! ## Provider router (`services/provider_manager.py`, `ProviderManager.chat`)

The two lazily-initialized clients are modelled by a configuration flag per
provider (whether its API key is available and the client can be built) and
by an oracle giving the string the client's `chat` would return for a model.
-/

/-- The string `"[Error: Unknown provider '<p>']"` (apostrophes written via
their code point). -/
def unknownProviderMsg (p : String) : String :=
  "[Error: Unknown provider \x27" ++ p ++ "\x27]"

def openRouterNotConfiguredMsg : String :=
  "[Error: OPENROUTER_API_KEY is not configured on this deployment]"

def groqNotConfiguredMsg : String :=
  "[Error: GROQ_API_KEY is not configured on this deployment]"

/-- `ProviderManager.chat`: routes by `config.provider.lower()`.  `orReady`
(resp. `groqReady`) says the OpenRouter (resp. Groq) key is set and the
client constructs; `orChat`/`groqChat` are the clients' responses per model.
If the needed client is unavailable the inline error string is returned
without consulting the client oracle. -/
def providerManagerChat (orReady groqReady : Bool)
    (orChat groqChat : String → String) (config : ModelConfig) : String :=
  let provider := lowerStr config.provider
  if provider == "openrouter" then
    if orReady then orChat config.model else openRouterNotConfiguredMsg
  else if provider == "groq" then
    if groqReady then groqChat config.model else groqNotConfiguredMsg
  else
    unknownProviderMsg provider

/-! ## Resilient provider clients
(`services/openrouter_client.py` and `services/groq_client.py`)

Both `chat` methods are the same retry loop around a single-attempt `_post`;
they differ only in their fallback template.  An attempt's outcome is one of
the exception classes the loop distinguishes, or a successful text. -/

/-- Outcome of one `_post` attempt. -/
inductive AttemptOutcome where
  | success (text : String)
  /-- `aiohttp.ClientConnectionError`, `aiohttp.ServerTimeoutError` or
  `asyncio.TimeoutError`: transient. -/
  | netTimeout
  /-- `aiohttp.ClientResponseError` carrying this HTTP status. -/
  | httpError (status : Nat)
  /-- Any other exception, e.g. the `ValueError` raised on a malformed
  response payload. -/
  | otherError
deriving Repr, DecidableEq

/-- True exactly for a successful attempt outcome. -/
def isSuccessOutcome : AttemptOutcome → Bool
  | .success _ => true
  | _ => false

/-- Observable result of a client `chat` call: the returned string, how many
attempts ran, and the backoff sleeps performed (attempt number, duration in
seconds as a rational). -/
structure ChatOutcome where
  result : String
  attemptsMade : Nat
  sleeps : List (Nat × ℚ)
deriving Repr, DecidableEq

/-- The body of `for attempt in range(1, self._max_retries + 1)` in both
clients' `chat`.  `remaining + 1` is the number of attempts still allowed
including the current one (so `remaining = 0` means `attempt` is the final
attempt and the `attempt < self._max_retries` sleep guard is false).
A 429 response and network timeouts are transient; any other 4xx aborts the
loop, as does an unexpected exception.  Between attempts the loop sleeps
`max(base ** attempt + uniform(-jitter, jitter), 0.5)` seconds, the random
draw being the oracle `jitter attempt`. -/
def retryGo (base : ℚ) (jitter : Nat → ℚ) (attemptResult : Nat → AttemptOutcome)
    (fallback : String) : Nat → Nat → List (Nat × ℚ) → ChatOutcome
  | 0, attempt, acc =>
    { result := fallback, attemptsMade := attempt - 1, sleeps := acc.reverse }
  | remaining + 1, attempt, acc =>
    match attemptResult attempt with
    | .success t => { result := t, attemptsMade := attempt, sleeps := acc.reverse }
    | .netTimeout =>
      if remaining = 0 then
        { result := fallback, attemptsMade := attempt, sleeps := acc.reverse }
      else
        retryGo base jitter attemptResult fallback remaining (attempt + 1)
          ((attempt, max (base ^ attempt + jitter attempt) (1 / 2)) :: acc)
    | .httpError s =>
      if s ≠ 429 ∧ 400 ≤ s ∧ s < 500 then
        { result := fallback, attemptsMade := attempt, sleeps := acc.reverse }
      else if remaining = 0 then
        { result := fallback, attemptsMade := attempt, sleeps := acc.reverse }
      else
        retryGo base jitter attemptResult fallback remaining (attempt + 1)
          ((attempt, max (base ^ attempt + jitter attempt) (1 / 2)) :: acc)
    | .otherError =>
      { result := fallback, attemptsMade := attempt, sleeps := acc.reverse }

/-- `FALLBACK_RESPONSE_TEMPLATE.format(...)` of `openrouter_client.py`:
`"[{model} failed to respond after {retries} retries]"`. -/
def openRouterFallback (model : String) (retries : Nat) : String :=
  "[" ++ model ++ " failed to respond after " ++ toString retries ++ " retries]"

/-- `FALLBACK_RESPONSE_TEMPLATE.format(...)` of `groq_client.py`:
`"[Groq model {model} failed after {retries} retries]"`. -/
def groqFallback (model : String) (retries : Nat) : String :=
  "[Groq model " ++ model ++ " failed after " ++ toString retries ++ " retries]"

/-- `OpenRouterClient.chat` with the per-attempt network behaviour supplied
as an oracle. -/
def OpenRouterClient.chat (model : String) (maxRetries : Nat) (base : ℚ) (jitter : Nat → ℚ)
    (attemptResult : Nat → AttemptOutcome) : ChatOutcome :=
  retryGo base jitter attemptResult (openRouterFallback model maxRetries) maxRetries 1 []

/-- `GroqClient.chat` with the per-attempt network behaviour supplied as an
oracle; identical loop, Groq fallback template. -/
def GroqClient.chat (model : String) (maxRetries : Nat) (base : ℚ) (jitter : Nat → ℚ)
    (attemptResult : Nat → AttemptOutcome) : ChatOutcome :=
  retryGo base jitter attemptResult (groqFallback model maxRetries) maxRetries 1 []

/-! ## Markdown code-fence stripping (`services/review_service.py`)

Models `re.sub(r'^```(?:json)?\s*|\s*```$', '', text, flags=re.MULTILINE)`:
scan left to right; at each position first try the opening-fence
alternative (it is anchored by `^`, so only at the start of the text or just
after a newline), then the closing-fence alternative; on a match drop the
matched characters and resume after them, otherwise keep the character.
Neither alternative can match the empty string (both require three
backticks), and `\s*` followed by a backtick pins each alternative to a
unique extent, so this scan is exactly Python's leftmost, first-alternative
semantics for this pattern. -/

/-- Drop a maximal run of `\s` characters, tracking whether the character
dropped last was a newline (`last` is the value carried in when nothing is
dropped). -/
def dropWS (last : Bool) : List Char → Bool × List Char
  | [] => (last, [])
  | c :: cs => if isWSChar c then dropWS (c == '\n') cs else (last, c :: cs)

/-- The optional `(?:json)?` tag right after the opening backticks: consumed
greedily when present. -/
def stripJsonTag (cs : List Char) : List Char :=
  match cs with
  | a :: b :: c :: d :: rest =>
    if a == 'j' && b == 's' && c == 'o' && d == 'n' then rest else cs
  | _ => cs

/-- Try `` ^```(?:json)?\s* `` at the current position (the caller has
already checked the `^` anchor).  Returns the remainder and whether the last
consumed character was a newline. -/
def matchFenceOpen (cs : List Char) : Option (Bool × List Char) :=
  match cs with
  | a :: b :: c :: rest =>
    if a == btick && b == btick && c == btick then
      some (dropWS false (stripJsonTag rest))
    else none
  | _ => none

/-- Heart of the closing-fence alternative: after the `\s*` run, require
three backticks and then `$`. -/
def closeAfterWS : List Char → Option (Bool × List Char)
  | a :: b :: c :: rest =>
    if a == btick && b == btick && c == btick then
      match rest with
      | [] => some (false, [])
      | e :: _ => if e == '\n' then some (false, rest) else none
    else none
  | _ => none

/-- Try `` \s*```$ `` at the current position; `$` under `re.MULTILINE` is
the end of the text or a position just before a newline (the newline is not
consumed).  The last consumed character is a backtick, never a newline. -/
def matchFenceClose (cs : List Char) : Option (Bool × List Char) :=
  closeAfterWS (dropWS false cs).2

/-- The substitution scan.  `atStart` says the current position satisfies
the `^` anchor.  `fuel` only serves termination; every step consumes at
least one character, so `fuel = length` always suffices. -/
def fenceSubGo : Nat → Bool → List Char → List Char
  | 0, _, cs => cs
  | _, _, [] => []
  | fuel + 1, atStart, c :: cs =>
    match if atStart then matchFenceOpen (c :: cs) else none with
    | some (nl, rest) => fenceSubGo fuel nl rest
    | none =>
      match matchFenceClose (c :: cs) with
      | some (nl, rest) => fenceSubGo fuel nl rest
      | none => c :: fenceSubGo fuel (c == '\n') cs

/-- `re.sub(r'^```(?:json)?\s*|\s*```$', '', s, flags=re.MULTILINE)`. -/
def stripFence (s : String) : String := ⟨fenceSubGo s.data.length true s.data⟩

/-! ## JSON (`json.loads`)

A value model and a recursive-descent parser for the JSON the reviewers
return.  The parser follows the JSON grammar as `json.loads` accepts it
(objects with string keys — later duplicates win when converted to a dict —
arrays, strings with the standard escapes, numbers, the three literals;
whole input consumed up to whitespace). -/

/-- A parsed JSON value.  Numbers are kept as rationals. -/
inductive Json where
  | null
  | bool (b : Bool)
  | num (q : ℚ)
  | str (s : String)
  | arr (elems : List Json)
  | obj (fields : List (String × Json))
deriving Repr

/-- JSON whitespace accepted between tokens by `json.loads`. -/
def isJsonWS (c : Char) : Bool := c == ' ' || c == '\t' || c == '\n' || c == '\r'

def skipJsonWS (cs : List Char) : List Char := cs.dropWhile isJsonWS

def hexVal (c : Char) : Option Nat :=
  if '0' ≤ c ∧ c ≤ '9' then some (c.toNat - 48)
  else if 'a' ≤ c ∧ c ≤ 'f' then some (c.toNat - 87)
  else if 'A' ≤ c ∧ c ≤ 'F' then some (c.toNat - 55)
  else none

/-- Body of a JSON string after the opening quote: content up to the closing
quote, with the standard escapes decoded; unescaped control characters are
rejected (`json.loads` default `strict=True`). -/
def parseStringBody : Nat → List Char → Option (List Char × List Char)
  | 0, _ => none
  | _, [] => none
  | fuel + 1, c :: cs =>
    if c == '"' then some ([], cs)
    else if c == '\\' then
      match cs with
      | [] => none
      | e :: cs' =>
        if e == 'u' then
          match cs' with
          | h1 :: h2 :: h3 :: h4 :: cs'' => do
            let v1 ← hexVal h1
            let v2 ← hexVal h2
            let v3 ← hexVal h3
            let v4 ← hexVal h4
            let code := ((v1 * 16 + v2) * 16 + v3) * 16 + v4
            let (content, rest) ← parseStringBody fuel cs''
            pure (Char.ofNat code :: content, rest)
          | _ => none
        else do
          let d ←
            if e == '"' then some '"'
            else if e == '\\' then some '\\'
            else if e == '/' then some '/'
            else if e == 'b' then some '\x08'
            else if e == 'f' then some '\x0c'
            else if e == 'n' then some '\n'
            else if e == 'r' then some '\r'
            else if e == 't' then some '\t'
            else none
          let (content, rest) ← parseStringBody fuel cs'
          pure (d :: content, rest)
    else if c.toNat < 32 then none
    else do
      let (content, rest) ← parseStringBody fuel cs
      pure (c :: content, rest)

def isDigitChar (c : Char) : Bool := '0' ≤ c && c ≤ '9'

/-- A non-empty run of decimal digits and the remainder. -/
def parseDigits (cs : List Char) : Option (List Char × List Char) :=
  match cs.span isDigitChar with
  | ([], _) => none
  | (ds, rest) => some (ds, rest)

def digitsToNat (ds : List Char) : Nat :=
  ds.foldl (fun n c => n * 10 + (c.toNat - 48)) 0

/-- A JSON number: optional minus, integer part without leading zeros,
optional fraction, optional exponent. -/
def parseNumber (cs : List Char) : Option (ℚ × List Char) := do
  let (neg, cs1) :=
    match cs with
    | c :: rest => if c == '-' then (true, rest) else (false, cs)
    | [] => (false, cs)
  let (ints, cs2) ← parseDigits cs1
  if ints.length > 1 ∧ ints.headD '0' == '0' then none else
  let intVal : ℚ := (digitsToNat ints : ℚ)
  let (fracVal, cs3) ←
    match cs2 with
    | c :: rest =>
      if c == '.' then do
        let (fs, r) ← parseDigits rest
        pure (((digitsToNat fs : ℚ) / ((10 : ℚ) ^ fs.length), r))
      else pure ((0 : ℚ), cs2)
    | [] => pure ((0 : ℚ), cs2)
  let (expVal, cs4) ←
    match cs3 with
    | c :: rest =>
      if c == 'e' || c == 'E' then do
        let (eneg, rest') :=
          match rest with
          | d :: r2 =>
            if d == '-' then (true, r2) else if d == '+' then (false, r2) else (false, rest)
          | [] => (false, rest)
        let (es, r) ← parseDigits rest'
        pure ((if eneg then -(digitsToNat es : ℤ) else (digitsToNat es : ℤ), r))
      else pure ((0 : ℤ), cs3)
    | [] => pure ((0 : ℤ), cs3)
  let mag : ℚ := (intVal + fracVal) * (10 : ℚ) ^ expVal
  pure (if neg then -mag else mag, cs4)

/-- Check a literal keyword (`null`, `true`, `false`) at the head. -/
def parseKeyword (kw : List Char) (cs : List Char) : Option (List Char) :=
  if isPrefixCL kw cs then some (cs.drop kw.length) else none

mutual

/-- One JSON value starting at `cs` (leading whitespace allowed). -/
def parseValue : Nat → List Char → Option (Json × List Char)
  | 0, _ => none
  | fuel + 1, cs =>
    let cs := skipJsonWS cs
    match parseKeyword "null".data cs with
    | some rest => some (.null, rest)
    | none =>
    match parseKeyword "true".data cs with
    | some rest => some (.bool true, rest)
    | none =>
    match parseKeyword "false".data cs with
    | some rest => some (.bool false, rest)
    | none =>
    match cs with
    | [] => none
    | c :: rest =>
      if c == '"' then do
        let (content, r) ← parseStringBody (fuel + 1) rest
        pure (.str ⟨content⟩, r)
      else if c == '[' then do
        let (elems, r) ← parseArrayItems fuel (skipJsonWS rest) true
        pure (.arr elems, r)
      else if c == '{' then do
        let (fields, r) ← parseObjFields fuel (skipJsonWS rest) true
        pure (.obj fields, r)
      else do
        let (q, r) ← parseNumber cs
        pure (.num q, r)

/-- Array items after `[` (whitespace already skipped); `first` is true until
an item has been read, so `]` right away is only accepted for `[]` and
trailing commas are rejected. -/
def parseArrayItems : Nat → List Char → Bool → Option (List Json × List Char)
  | 0, _, _ => none
  | fuel + 1, cs, first =>
    match cs with
    | ']' :: rest => if first then some ([], rest) else none
    | _ => do
      let (v, r) ← parseValue fuel cs
      match skipJsonWS r with
      | ']' :: rest => pure ([v], rest)
      | ',' :: rest => do
        let (vs, r2) ← parseArrayItems fuel (skipJsonWS rest) false
        pure (v :: vs, r2)
      | _ => none

/-- Object fields after `{` (whitespace already skipped); `first` as in
`parseArrayItems`. -/
def parseObjFields : Nat → List Char → Bool → Option (List (String × Json) × List Char)
  | 0, _, _ => none
  | fuel + 1, cs, first =>
    match cs with
    | '}' :: rest => if first then some ([], rest) else none
    | '"' :: rest => do
      let (key, r) ← parseStringBody (fuel + 1) rest
      match skipJsonWS r with
      | ':' :: r2 => do
        let (v, r3) ← parseValue fuel r2
        match skipJsonWS r3 with
        | '}' :: r4 => pure ([(⟨key⟩, v)], r4)
        | ',' :: r4 => do
          let (fields, r5) ← parseObjFields fuel (skipJsonWS r4) false
          pure ((⟨key⟩, v) :: fields, r5)
        | _ => none
      | _ => none
    | _ => none

end

/-- `json.loads`: parse one value and require only whitespace after it. -/
def jsonLoads (s : String) : Option Json :=
  match parseValue (s.data.length + 1) s.data with
  | some (v, rest) => if (skipJsonWS rest).isEmpty then some v else none
  | none => none

/-! ## Stage 2 (`services/review_service.py`, `conduct_reviews`) -/

/-- `dict.get(key, default)` on the dict `json.loads` builds from an object
literal: with duplicate keys the last occurrence wins. -/
def objGet (fields : List (String × Json)) (key : String) : Option Json :=
  (fields.reverse.find? (fun kv => kv.1 == key)).map (fun kv => kv.2)

/-- An `int`-annotated pydantic field: accepts a JSON number with no
fractional part (pydantic's lax mode also coerces such floats). -/
def jsonInt : Json → Option Int
  | .num q => if q.den = 1 then some q.num else none
  | _ => none

/-- A `float`-annotated pydantic field: accepts any JSON number. -/
def jsonNum : Json → Option ℚ
  | .num q => some q
  | _ => none

/-- A `str`-annotated pydantic field. -/
def jsonStr : Json → Option String
  | .str s => some s
  | _ => none

/-- `RankingItem(**r)`: `r` must be a mapping providing an int
`response_id` and a numeric `score_total`; otherwise the construction
raises (`TypeError` or pydantic's `ValidationError`, a `ValueError`), which
`conduct_reviews` catches. -/
def rankingOfJson (j : Json) : Option RankingItem :=
  match j with
  | .obj fields => do
    let rid ← jsonInt (← objGet fields "response_id")
    let st ← jsonNum (← objGet fields "score_total")
    pure ⟨rid, st⟩
  | _ => none

/-- `DetailedScore(**s)`: int `response_id`, three ints constrained by
pydantic to `0 ≤ _ ≤ 10`, and a string `critique`. -/
def detailedScoreOfJson (j : Json) : Option DetailedScore :=
  match j with
  | .obj fields => do
    let rid ← jsonInt (← objGet fields "response_id")
    let acc ← jsonInt (← objGet fields "accuracy")
    let ins ← jsonInt (← objGet fields "insight")
    let lg ← jsonInt (← objGet fields "logic")
    if 0 ≤ acc ∧ acc ≤ 10 ∧ 0 ≤ ins ∧ ins ≤ 10 ∧ 0 ≤ lg ∧ lg ≤ 10 then
      let cr ← jsonStr (← objGet fields "critique")
      pure ⟨rid, acc, ins, lg, cr⟩
    else none
  | _ => none

/-- Python iteration of the value found under `rankings`/`detailed_scores`,
feeding `Model(**r)`: a list yields its elements; an empty dict or empty
string yields nothing; a non-empty dict or string yields keys/characters on
which `**` raises `TypeError` (caught); anything else is not iterable
(`TypeError`, caught).  `none` stands for a caught exception. -/
def iterForUnpack : Json → Option (List Json)
  | .arr xs => some xs
  | .obj fields => if fields.isEmpty then some [] else none
  | .str s => if s.data.isEmpty then some [] else none
  | _ => none

/-- Build the list-field of a review: iterate and construct each item. -/
def buildItems {α : Type} (ofJson : Json → Option α) (v : Json) : Option (List α) :=
  (iterForUnpack v).bind (fun xs => xs.mapM ofJson)

/-- The review appended when a reviewer failed or could not be parsed. -/
def failedReview (config : ModelConfig) : Stage2Review :=
  { reviewer_model_id := config.model
    reviewer_provider := config.provider
    rankings := []
    detailed_scores := []
    succeeded := false }

/-- The one exception class the Stage-2 loop does not catch:
`data.get(...)` on a JSON document whose top level is not an object raises
`AttributeError`, which is absent from the loop's `except` tuple and so
escapes `conduct_reviews`. -/
inductive StageAbort where
  | attributeError
deriving Repr, DecidableEq

/-- The per-reviewer body of the `conduct_reviews` gather loop.  An
exception result or a string starting with `[` short-circuits to a failed
review; otherwise the string is stripped, un-fenced and parsed; a caught
parse or construction failure yields a failed review, and a non-object top
level raises `AttributeError`. -/
def reviewOne (config : ModelConfig) (result : GatherResult) :
    Except StageAbort Stage2Review :=
  match result with
  | .exn => .ok (failedReview config)
  | .str s =>
    if startsWithStr s "[" then .ok (failedReview config)
    else
      match jsonLoads (stripFence (pyStrip s)) with
      | none => .ok (failedReview config)
      | some (.obj fields) =>
        match buildItems rankingOfJson (objGet fields "rankings" |>.getD (.arr [])),
            buildItems detailedScoreOfJson (objGet fields "detailed_scores" |>.getD (.arr [])) with
        | some rs, some ds =>
          .ok { reviewer_model_id := config.model
                reviewer_provider := config.provider
                rankings := rs
                detailed_scores := ds
                succeeded := true }
        | _, _ => .ok (failedReview config)
      | some _ => .error .attributeError

/-- The `for config, result in zip(reviewer_configs, raw_results)` loop: an
escaping exception aborts the whole call, discarding every review built so
far. -/
def reviewsFrom : List ModelConfig → List GatherResult →
    Except StageAbort (List Stage2Review)
  | [], _ => .ok []
  | _ :: _, [] => .ok []
  | c :: cs, r :: rs => do
    let rev ← reviewOne c r
    let rest ← reviewsFrom cs rs
    pure (rev :: rest)

/-- Stage 2, `conduct_reviews`: the gathered per-reviewer call outcomes are
`raw_results`, one per reviewer in input order. -/
def conduct_reviews (reviewer_configs : List ModelConfig)
    (raw_results : List GatherResult) : Except StageAbort (List Stage2Review) :=
  reviewsFrom reviewer_configs raw_results

/-! ## Stage 3 and the orchestrator
(`services/chairman_service.py`, `services/orchestrator.py`) -/

/-- Stage 3, `synthesize_deliberation`: builds the chairman payload from the
successful opinions and reviews and performs one routed chat call, whose
outcome is `chairman_result`; an escaping exception is converted to a
fallback verdict naming the chairman model. -/
def synthesize_deliberation (chairman_config : ModelConfig)
    (chairman_result : GatherResult) : String :=
  match chairman_result with
  | .str verdict => verdict
  | .exn =>
    "[Chairman " ++ chairman_config.model ++
      " failed to synthesize the council\x27s deliberation.]"

/-- The deliberation trace assembled by `run_deliberation` (the wall-clock
timing metadata is omitted from the model). -/
structure DeliberationTrace where
  original_prompt : String
  stage1_opinions : List Stage1Opinion
  stage2_reviews : List Stage2Review
  verdict : String
deriving Repr, DecidableEq

/-- `run_deliberation`: Stage 1 always runs; Stage 2 runs only when at least
one Stage-1 opinion succeeded, otherwise the review list stays empty; Stage
3 always runs on whatever the earlier stages produced.  The three oracles
are the gathered outcomes of the provider calls each stage performs. -/
def run_deliberation (prompt : String) (council_models : List ModelConfig)
    (chairman_model : ModelConfig)
    (stage1_results stage2_results : List GatherResult)
    (chairman_result : GatherResult) : Except StageAbort DeliberationTrace := do
  let opinions := generate_opinions council_models stage1_results
  let reviews ←
    if opinions.any (fun op => op.succeeded) then
      conduct_reviews council_models stage2_results
    else
      pure []
  pure { original_prompt := prompt
         stage1_opinions := opinions
         stage2_reviews := reviews
         verdict := synthesize_deliberation chairman_model chairman_result }

/-! ## Helper lemmas about Stage 1 -/

theorem mkOpinion_response_id (i : Nat) (c : ModelConfig) (r : GatherResult) :
    (mkOpinion i c r).response_id = i := by
  cases r <;> rfl

theorem mkOpinion_model_id (i : Nat) (c : ModelConfig) (r : GatherResult) :
    (mkOpinion i c r).model_id = c.model := by
  cases r <;> rfl

theorem mkOpinion_provider (i : Nat) (c : ModelConfig) (r : GatherResult) :
    (mkOpinion i c r).provider = c.provider := by
  cases r <;> rfl

theorem opinionsFrom_length : ∀ (cs : List ModelConfig) (rs : List GatherResult) (i : Nat),
    rs.length = cs.length → (opinionsFrom i cs rs).length = cs.length
  | [], _, _, _ => rfl
  | _ :: _, [], _, h => by simp at h
  | _ :: cs, _ :: rs, i, h => by
    simp only [opinionsFrom, List.length_cons]
    exact congrArg (· + 1) (opinionsFrom_length cs rs (i + 1) (by simpa using h))

theorem opinionsFrom_getD : ∀ (cs : List ModelConfig) (rs : List GatherResult) (i k : Nat),
    rs.length = cs.length → k < cs.length →
    (opinionsFrom i cs rs).getD k dummyOpinion =
      mkOpinion (i + k) (cs.getD k dummyConfig) (rs.getD k dummyResult)
  | [], _, _, k, _, hk => absurd hk (by simp)
  | _ :: _, [], _, _, h, _ => by simp at h
  | c :: cs, r :: rs, i, 0, _, _ => by simp [opinionsFrom]
  | c :: cs, r :: rs, i, k + 1, h, hk => by
    simp only [opinionsFrom, List.getD_cons_succ]
    rw [opinionsFrom_getD cs rs (i + 1) k (by simpa using h) (by simpa using hk)]
    ring_nf

/-- Claim C1: for every non-empty council of size N whose gathered results
are one per model (as `asyncio.gather` returns them), Stage 1 produces
exactly N opinions, in input order: the i-th opinion (1-based) carries
`response_id = i` and the model/provider of the i-th config, no matter
which calls failed or raised. -/
theorem claim_C1 (model_list : List ModelConfig) (raw_results : List GatherResult)
    (_hne : model_list ≠ []) (hlen : raw_results.length = model_list.length) :
    (generate_opinions model_list raw_results).length = model_list.length ∧
    ∀ i, i < model_list.length →
      ((generate_opinions model_list raw_results).getD i dummyOpinion).response_id = i + 1 ∧
      ((generate_opinions model_list raw_results).getD i dummyOpinion).model_id =
        (model_list.getD i dummyConfig).model ∧
      ((generate_opinions model_list raw_results).getD i dummyOpinion).provider =
        (model_list.getD i dummyConfig).provider := by
  refine ⟨opinionsFrom_length _ _ _ hlen, fun i hi => ?_⟩
  rw [generate_opinions, opinionsFrom_getD _ _ _ _ hlen hi]
  refine ⟨?_, mkOpinion_model_id .., mkOpinion_provider ..⟩
  rw [mkOpinion_response_id]
  omega

/-- Concrete instantiation of C1: a three-model council where the second
call raised and the third returned a fallback string. -/
theorem claim_C1_witness :
    ([(⟨"openrouter", "a/b:free"⟩ : ModelConfig), ⟨"groq", "g"⟩, ⟨"openrouter", "c"⟩] ≠ []) ∧
    (generate_opinions
        [⟨"openrouter", "a/b:free"⟩, ⟨"groq", "g"⟩, ⟨"openrouter", "c"⟩]
        [.str "fine", .exn, .str "[c failed to respond after 1 retries]"]).length = 3 ∧
    ((generate_opinions
        [⟨"openrouter", "a/b:free"⟩, ⟨"groq", "g"⟩, ⟨"openrouter", "c"⟩]
        [.str "fine", .exn, .str "[c failed to respond after 1 retries]"]).getD 1
        dummyOpinion).response_id = 2 := by
  have h := claim_C1
    [⟨"openrouter", "a/b:free"⟩, ⟨"groq", "g"⟩, ⟨"openrouter", "c"⟩]
    [.str "fine", .exn, .str "[c failed to respond after 1 retries]"]
    (by decide) (by decide)
  exact ⟨by decide, h.1, (h.2 1 (by decide)).1⟩

/-- Claim C2, counterexample: `generate_opinions` tests only for `failed`,
not `error`.  The router error string `"[Error: Unknown provider 'foo']"`
begins with `[` and contains `error` (case-insensitively) but not `failed`,
and the opinion built from it is marked `succeeded = true`, where the claim
requires `succeeded = false`. -/
theorem claim_C2_cex :
    ((generate_opinions [⟨"openrouter", "m"⟩]
        [.str "[Error: Unknown provider \x27foo\x27]"]).getD 0 dummyOpinion).succeeded
        = true ∧
    startsWithStr "[Error: Unknown provider \x27foo\x27]" "[" = true ∧
    strContains (lowerStr "[Error: Unknown provider \x27foo\x27]") "error" = true ∧
    strContains (lowerStr "[Error: Unknown provider \x27foo\x27]") "failed" = false := by
  decide

/-- Claim C2 as amended: for a string result gathered in Stage 1, the
resulting opinion has `succeeded = false` iff the string begins with `[`
AND contains `failed` (case-insensitive) — the `error` disjunct of the
claimed predicate is not part of `generate_opinions` (it appears only in
`council_orchestrator._is_fallback`, which builds no `Stage1Opinion`).  In
particular a genuine answer containing `error` without the `[` prefix is
classified succeeded, and so is a bracketed string containing `error` but
not `failed`. -/
theorem claim_C2_amended (model_list : List ModelConfig) (raw_results : List GatherResult)
    (hlen : raw_results.length = model_list.length)
    (i : Nat) (s : String) (hi : i < model_list.length)
    (hres : raw_results.getD i dummyResult = .str s) :
    ((generate_opinions model_list raw_results).getD i dummyOpinion).succeeded = false ↔
      (startsWithStr s "[" = true ∧ strContains (lowerStr s) "failed" = true) := by
  rw [generate_opinions, opinionsFrom_getD _ _ _ _ hlen hi, hres]
  simp [mkOpinion]

/-- Concrete instantiation of C2 as amended: a client fallback string is
classified failed. -/
theorem claim_C2_amended_witness :
    ((generate_opinions [⟨"openrouter", "m"⟩]
        [.str "[m failed to respond after 1 retries]"]).getD 0 dummyOpinion).succeeded
        = false := by
  exact (claim_C2_amended [⟨"openrouter", "m"⟩]
    [.str "[m failed to respond after 1 retries]"] (by decide) 0
    "[m failed to respond after 1 retries]" (by decide) (by decide)).mpr (by decide)

/-- Claim C3: Stage 2 runs iff some Stage-1 opinion succeeded.  When every
opinion failed, the review list in the trace is empty and Stage 3 still
runs (the verdict is the chairman call's outcome); when some opinion
succeeded, the trace carries the Stage-2 output (and an exception escaping
Stage 2 propagates). -/
theorem claim_C3 (prompt : String) (council : List ModelConfig)
    (chairman : ModelConfig) (s1 s2 : List GatherResult) (cr : GatherResult) :
    ((∀ op ∈ generate_opinions council s1, op.succeeded = false) →
      run_deliberation prompt council chairman s1 s2 cr =
        .ok { original_prompt := prompt
              stage1_opinions := generate_opinions council s1
              stage2_reviews := []
              verdict := synthesize_deliberation chairman cr }) ∧
    ((∃ op ∈ generate_opinions council s1, op.succeeded = true) →
      run_deliberation prompt council chairman s1 s2 cr =
        (conduct_reviews council s2).map (fun reviews =>
          { original_prompt := prompt
            stage1_opinions := generate_opinions council s1
            stage2_reviews := reviews
            verdict := synthesize_deliberation chairman cr })) := by
  constructor
  · intro hall
    have hany : (generate_opinions council s1).any (fun op => op.succeeded) = false := by
      simp only [List.any_eq_false]
      intro op hop
      simp [hall op hop]
    simp [run_deliberation, hany, Bind.bind, Except.bind, pure, Except.pure]
  · intro hex
    have hany : (generate_opinions council s1).any (fun op => op.succeeded) = true := by
      simp only [List.any_eq_true]
      obtain ⟨op, hop, hs⟩ := hex
      exact ⟨op, hop, by simp [hs]⟩
    cases hcr : conduct_reviews council s2 with
    | ok l =>
      simp [run_deliberation, hany, hcr, Bind.bind, Except.bind, pure, Except.pure,
        Except.map]
    | error e =>
      simp [run_deliberation, hany, hcr, Bind.bind, Except.bind, pure, Except.pure,
        Except.map]

/-- Concrete instantiation of C3: both exception and fallback-string
failures in Stage 1, so Stage 2 is skipped while Stage 3 still runs. -/
theorem claim_C3_witness :
    run_deliberation "q" [⟨"openrouter", "m1"⟩, ⟨"groq", "m2"⟩] ⟨"openrouter", "ch"⟩
        [.exn, .str "[Groq model m2 failed after 1 retries]"]
        [.str "{}", .str "{}"] (.str "the verdict") =
      .ok { original_prompt := "q"
            stage1_opinions := generate_opinions [⟨"openrouter", "m1"⟩, ⟨"groq", "m2"⟩]
              [.exn, .str "[Groq model m2 failed after 1 retries]"]
            stage2_reviews := []
            verdict := "the verdict" } := by
  exact (claim_C3 "q" [⟨"openrouter", "m1"⟩, ⟨"groq", "m2"⟩] ⟨"openrouter", "ch"⟩
    [.exn, .str "[Groq model m2 failed after 1 retries]"]
    [.str "{}", .str "{}"] (.str "the verdict")).1 (by decide)

/-- Claim C5, counterexample: the router lower-cases the provider
identifier before both the dispatch test and the error interpolation, so
for the unknown identifier `"FOO"` it returns
`"[Error: Unknown provider 'foo']"`, not the claimed exact string with
`"FOO"` interpolated; the unconfigured-key message also carries the
`_API_KEY`/`on this deployment` wording rather than ending at
`is not configured]`. -/
theorem claim_C5_cex :
    providerManagerChat true true (fun _ => "") (fun _ => "") ⟨"FOO", "m"⟩ =
      unknownProviderMsg "foo" ∧
    unknownProviderMsg "foo" ≠ "[Error: Unknown provider \x27FOO\x27]" ∧
    providerManagerChat false false (fun _ => "") (fun _ => "") ⟨"openrouter", "m"⟩ =
      openRouterNotConfiguredMsg ∧
    openRouterNotConfiguredMsg ≠ "[Error: OPENROUTER is not configured]" := by
  decide

/-- Claim C5 as amended: `ProviderManager.chat` never raises.  For an
identifier whose lower-casing is neither `openrouter` nor `groq` it returns
exactly `"[Error: Unknown provider '<id>']"` with the lower-cased
identifier interpolated, and for a known provider whose credential is
absent it returns the fixed inline string
`"[Error: <PROVIDER>_API_KEY is not configured on this deployment]"` —
in both cases uniformly in the client oracles, i.e. without constructing a
client or attempting a network call. -/
theorem claim_C5_amended (orReady groqReady : Bool) (orChat gqChat : String → String)
    (config : ModelConfig) :
    (lowerStr config.provider ≠ "openrouter" → lowerStr config.provider ≠ "groq" →
      providerManagerChat orReady groqReady orChat gqChat config =
        unknownProviderMsg (lowerStr config.provider)) ∧
    (lowerStr config.provider = "openrouter" → orReady = false →
      providerManagerChat orReady groqReady orChat gqChat config =
        openRouterNotConfiguredMsg) ∧
    (lowerStr config.provider = "groq" → groqReady = false →
      providerManagerChat orReady groqReady orChat gqChat config =
        groqNotConfiguredMsg) := by
  refine ⟨fun h1 h2 => ?_, fun h1 h2 => ?_, fun h1 h2 => ?_⟩
  · simp [providerManagerChat, h1, h2]
  · simp [providerManagerChat, h1, h2]
  · by_cases hor : lowerStr config.provider = "openrouter"
    · rw [h1] at hor
      exact absurd hor (by decide)
    · simp [providerManagerChat, h1, h2, hor]

/-- Concrete instantiation of C5 as amended: the three routing outcomes at
explicit configurations, with arbitrary constant client oracles. -/
theorem claim_C5_amended_witness :
    providerManagerChat true true (fun _ => "a") (fun _ => "b") ⟨"foo", "m"⟩ =
      unknownProviderMsg "foo" ∧
    providerManagerChat false true (fun _ => "a") (fun _ => "b") ⟨"openrouter", "m"⟩ =
      openRouterNotConfiguredMsg ∧
    providerManagerChat true false (fun _ => "a") (fun _ => "b") ⟨"Groq", "m"⟩ =
      groqNotConfiguredMsg := by
  refine ⟨(claim_C5_amended true true _ _ ⟨"foo", "m"⟩).1 (by decide) (by decide), ?_, ?_⟩
  · exact (claim_C5_amended false true _ _ ⟨"openrouter", "m"⟩).2.1 (by decide) rfl
  · exact (claim_C5_amended true false _ _ ⟨"Groq", "m"⟩).2.2 (by decide) rfl

/-! ## Helper lemmas about the retry loop -/

theorem retryGo_result_fallback (base : ℚ) (jitter : Nat → ℚ)
    (ar : Nat → AttemptOutcome) (fallback : String) :
    ∀ (remaining attempt : Nat) (acc : List (Nat × ℚ)),
    (∀ k, attempt ≤ k → k < attempt + remaining → isSuccessOutcome (ar k) = false) →
    (retryGo base jitter ar fallback remaining attempt acc).result = fallback := by
  intro remaining
  induction remaining with
  | zero => intro attempt acc _; rfl
  | succ r ih =>
    intro attempt acc h
    have hcur : isSuccessOutcome (ar attempt) = false :=
      h attempt le_rfl (by omega)
    rw [retryGo]
    cases har : ar attempt with
    | success t => rw [har] at hcur; simp [isSuccessOutcome] at hcur
    | netTimeout =>
      by_cases hr : r = 0
      · simp [hr]
      · simp only [hr, if_false]
        exact ih (attempt + 1) _ (fun k hk1 hk2 => h k (by omega) (by omega))
    | httpError s =>
      by_cases hterm : s ≠ 429 ∧ 400 ≤ s ∧ s < 500
      · simp [hterm]
      · by_cases hr : r = 0
        · simp [hterm, hr]
        · simp only [hterm, if_false, hr]
          exact ih (attempt + 1) _ (fun k hk1 hk2 => h k (by omega) (by omega))
    | otherError => rfl

/-- Claim C6 counterexample: the Groq client's exhausted-retries fallback is
`"[Groq model <model> failed after <N> retries]"`, which differs from the
claimed `"[<model> failed to respond after <N> retries]"` form. -/
theorem claim_C6_cex :
    (GroqClient.chat "m" 1 2 (fun _ => 0) (fun _ => .netTimeout)).result =
      "[Groq model m failed after 1 retries]" ∧
    "[Groq model m failed after 1 retries]" ≠ "[m failed to respond after 1 retries]" := by
  decide

/-- Claim C6 as amended: when every attempt fails (so retries are exhausted
or aborted), both clients return — rather than raise — their fallback
string with the model and configured retry count interpolated: the
OpenRouter client returns `"[<model> failed to respond after <N> retries]"`
and the Groq client returns `"[Groq model <model> failed after <N>
retries]"`. -/
theorem claim_C6_amended (model : String) (maxRetries : Nat) (base : ℚ)
    (jitter : Nat → ℚ) (ar : Nat → AttemptOutcome)
    (h : ∀ k, 1 ≤ k → k ≤ maxRetries → isSuccessOutcome (ar k) = false) :
    (OpenRouterClient.chat model maxRetries base jitter ar).result =
      openRouterFallback model maxRetries ∧
    (GroqClient.chat model maxRetries base jitter ar).result =
      groqFallback model maxRetries ∧
    openRouterFallback model maxRetries =
      "[" ++ model ++ " failed to respond after " ++ toString maxRetries ++ " retries]" ∧
    groqFallback model maxRetries =
      "[Groq model " ++ model ++ " failed after " ++ toString maxRetries ++ " retries]" := by
  have h' : ∀ k, 1 ≤ k → k < 1 + maxRetries → isSuccessOutcome (ar k) = false :=
    fun k hk1 hk2 => h k hk1 (by omega)
  exact ⟨retryGo_result_fallback _ _ _ _ _ 1 [] h',
    retryGo_result_fallback _ _ _ _ _ 1 [] h', rfl, rfl⟩

/-- Concrete instantiation of C6 as amended: two attempts, a timeout then a
500, on both clients. -/
theorem claim_C6_amended_witness :
    (OpenRouterClient.chat "a/b:free" 2 2 (fun _ => 0)
        (fun k => if k = 1 then .netTimeout else .httpError 500)).result =
      "[a/b:free failed to respond after 2 retries]" ∧
    (GroqClient.chat "a/b:free" 2 2 (fun _ => 0)
        (fun k => if k = 1 then .netTimeout else .httpError 500)).result =
      "[Groq model a/b:free failed after 2 retries]" := by
  have h := claim_C6_amended "a/b:free" 2 2 (fun _ => 0)
    (fun k => if k = 1 then .netTimeout else .httpError 500)
    (by intro k hk1 hk2; interval_cases k <;> decide)
  exact ⟨h.1.trans h.2.2.1, h.2.1.trans h.2.2.2⟩

theorem retryGo_429_all (base : ℚ) (jitter : Nat → ℚ) (ar : Nat → AttemptOutcome)
    (fallback : String) :
    ∀ (remaining attempt : Nat) (acc : List (Nat × ℚ)), 1 ≤ remaining →
    (∀ k, attempt ≤ k → k < attempt + remaining → ar k = .httpError 429) →
    (retryGo base jitter ar fallback remaining attempt acc).attemptsMade =
      attempt + remaining - 1 ∧
    (retryGo base jitter ar fallback remaining attempt acc).result = fallback := by
  intro remaining
  induction remaining with
  | zero => intro _ _ h; omega
  | succ r ih =>
    intro attempt acc _ h
    have har : ar attempt = .httpError 429 := h attempt le_rfl (by omega)
    rw [retryGo, har]
    have hcond : ¬((429 : Nat) ≠ 429 ∧ 400 ≤ 429 ∧ 429 < 500) := by simp
    by_cases hr : r = 0
    · simp [hcond, hr]
    · simp only [hcond, if_false, hr]
      have := ih (attempt + 1) ((attempt, max (base ^ attempt + jitter attempt) (1 / 2)) :: acc)
        (by omega) (fun k hk1 hk2 => h k (by omega) (by omega))
      refine ⟨?_, this.2⟩
      rw [this.1]
      omega

/-- Claim C7: in both clients' retry loop, a 429 is transient (when every
attempt returns 429 the loop runs all `maxRetries` attempts before falling
back), while a first-attempt HTTP error with any other status in
`[400, 500)` stops after that one attempt, as does any other unexpected
exception — and all three paths return the fallback string instead of
raising. -/
theorem claim_C7 (model : String) (maxRetries : Nat) (base : ℚ) (jitter : Nat → ℚ)
    (ar : Nat → AttemptOutcome) (hmax : 1 ≤ maxRetries) :
    ((∀ k, 1 ≤ k → k ≤ maxRetries → ar k = .httpError 429) →
      (OpenRouterClient.chat model maxRetries base jitter ar).attemptsMade = maxRetries ∧
      (OpenRouterClient.chat model maxRetries base jitter ar).result =
        openRouterFallback model maxRetries ∧
      (GroqClient.chat model maxRetries base jitter ar).attemptsMade = maxRetries ∧
      (GroqClient.chat model maxRetries base jitter ar).result =
        groqFallback model maxRetries) ∧
    (∀ s, 400 ≤ s → s < 500 → s ≠ 429 → ar 1 = .httpError s →
      (OpenRouterClient.chat model maxRetries base jitter ar).attemptsMade = 1 ∧
      (OpenRouterClient.chat model maxRetries base jitter ar).result =
        openRouterFallback model maxRetries ∧
      (GroqClient.chat model maxRetries base jitter ar).attemptsMade = 1 ∧
      (GroqClient.chat model maxRetries base jitter ar).result =
        groqFallback model maxRetries) ∧
    (ar 1 = .otherError →
      (OpenRouterClient.chat model maxRetries base jitter ar).attemptsMade = 1 ∧
      (OpenRouterClient.chat model maxRetries base jitter ar).result =
        openRouterFallback model maxRetries ∧
      (GroqClient.chat model maxRetries base jitter ar).attemptsMade = 1 ∧
      (GroqClient.chat model maxRetries base jitter ar).result =
        groqFallback model maxRetries) := by
  obtain ⟨m, rfl⟩ : ∃ m, maxRetries = m + 1 := ⟨maxRetries - 1, by omega⟩
  refine ⟨fun h429 => ?_, fun s hs1 hs2 hs3 har => ?_, fun har => ?_⟩
  · have h' : ∀ k, 1 ≤ k → k < 1 + (m + 1) → ar k = .httpError 429 :=
      fun k hk1 hk2 => h429 k hk1 (by omega)
    have ho := retryGo_429_all base jitter ar (openRouterFallback model (m + 1))
      (m + 1) 1 [] (by omega) h'
    have hg := retryGo_429_all base jitter ar (groqFallback model (m + 1))
      (m + 1) 1 [] (by omega) h'
    refine ⟨?_, ho.2, ?_, hg.2⟩
    · rw [OpenRouterClient.chat, ho.1]; omega
    · rw [GroqClient.chat, hg.1]; omega
  · have hcond : s ≠ 429 ∧ 400 ≤ s ∧ s < 500 := ⟨hs3, hs1, hs2⟩
    constructor
    · rw [OpenRouterClient.chat, retryGo, har]; simp [hcond]
    constructor
    · rw [OpenRouterClient.chat, retryGo, har]; simp [hcond]
    constructor
    · rw [GroqClient.chat, retryGo, har]; simp [hcond]
    · rw [GroqClient.chat, retryGo, har]; simp [hcond]
  · refine ⟨?_, ?_, ?_, ?_⟩
    · rw [OpenRouterClient.chat, retryGo, har]
    · rw [OpenRouterClient.chat, retryGo, har]
    · rw [GroqClient.chat, retryGo, har]
    · rw [GroqClient.chat, retryGo, har]

/-- Concrete instantiation of C7: all-429 runs both attempts; a 404 or a
parse error on attempt 1 stops after one attempt. -/
theorem claim_C7_witness :
    ((OpenRouterClient.chat "m" 2 2 (fun _ => 0) (fun _ => .httpError 429)).attemptsMade = 2 ∧
      (GroqClient.chat "m" 2 2 (fun _ => 0) (fun _ => .httpError 429)).result =
        groqFallback "m" 2) ∧
    ((OpenRouterClient.chat "m" 2 2 (fun _ => 0) (fun _ => .httpError 404)).attemptsMade = 1 ∧
      (OpenRouterClient.chat "m" 2 2 (fun _ => 0) (fun _ => .httpError 404)).result =
        openRouterFallback "m" 2) ∧
    (GroqClient.chat "m" 2 2 (fun _ => 0) (fun _ => .otherError)).attemptsMade = 1 := by
  refine ⟨?_, ?_, ?_⟩
  · have h := (claim_C7 "m" 2 2 (fun _ => 0) (fun _ => .httpError 429) (by omega)).1
      (fun k _ _ => rfl)
    exact ⟨h.1, h.2.2.2⟩
  · have h := (claim_C7 "m" 2 2 (fun _ => 0) (fun _ => .httpError 404) (by omega)).2.1
      404 (by omega) (by omega) (by omega) rfl
    exact ⟨h.1, h.2.1⟩
  · exact ((claim_C7 "m" 2 2 (fun _ => 0) (fun _ => .otherError) (by omega)).2.2 rfl).2.2.1

theorem retryGo_sleeps_inv (base : ℚ) (jitter : Nat → ℚ) (ar : Nat → AttemptOutcome)
    (fallback : String) (M : Nat) :
    ∀ (remaining attempt : Nat) (acc : List (Nat × ℚ)),
    attempt + remaining = M + 1 →
    (∀ p ∈ acc, p.1 < M ∧ p.2 = max (base ^ p.1 + jitter p.1) (1 / 2)) →
    ∀ p ∈ (retryGo base jitter ar fallback remaining attempt acc).sleeps,
      p.1 < M ∧ p.2 = max (base ^ p.1 + jitter p.1) (1 / 2) := by
  intro remaining
  induction remaining with
  | zero =>
    intro attempt acc _ hacc p hp
    rw [retryGo] at hp
    exact hacc p (List.mem_reverse.mp hp)
  | succ r ih =>
    intro attempt acc hM hacc p hp
    rw [retryGo] at hp
    cases har : ar attempt with
    | success t =>
      rw [har] at hp
      exact hacc p (List.mem_reverse.mp hp)
    | netTimeout =>
      rw [har] at hp
      simp only [] at hp
      by_cases hr : r = 0
      · rw [if_pos hr] at hp
        exact hacc p (List.mem_reverse.mp hp)
      · rw [if_neg hr] at hp
        refine ih (attempt + 1) _ (by omega) ?_ p hp
        intro q hq
        rcases List.mem_cons.mp hq with h | h
        · subst h
          exact ⟨by omega, rfl⟩
        · exact hacc q h
    | httpError s =>
      rw [har] at hp
      simp only [] at hp
      by_cases hterm : s ≠ 429 ∧ 400 ≤ s ∧ s < 500
      · rw [if_pos hterm] at hp
        exact hacc p (List.mem_reverse.mp hp)
      · rw [if_neg hterm] at hp
        by_cases hr : r = 0
        · rw [if_pos hr] at hp
          exact hacc p (List.mem_reverse.mp hp)
        · rw [if_neg hr] at hp
          refine ih (attempt + 1) _ (by omega) ?_ p hp
          intro q hq
          rcases List.mem_cons.mp hq with h | h
          · subst h
            exact ⟨by omega, rfl⟩
          · exact hacc q h
    | otherError =>
      rw [har] at hp
      exact hacc p (List.mem_reverse.mp hp)

/-- Claim C8: in both clients, every backoff sleep happens strictly before
the final attempt (never after it), and its duration is exactly
`max(base ^ attempt + jitter, 0.5)`, hence at least `0.5` seconds and in
particular never negative. -/
theorem claim_C8 (model : String) (maxRetries : Nat) (base : ℚ) (jitter : Nat → ℚ)
    (ar : Nat → AttemptOutcome) :
    (∀ p ∈ (OpenRouterClient.chat model maxRetries base jitter ar).sleeps,
      p.1 < maxRetries ∧ p.2 = max (base ^ p.1 + jitter p.1) (1 / 2) ∧ (1 / 2 : ℚ) ≤ p.2) ∧
    (∀ p ∈ (GroqClient.chat model maxRetries base jitter ar).sleeps,
      p.1 < maxRetries ∧ p.2 = max (base ^ p.1 + jitter p.1) (1 / 2) ∧ (1 / 2 : ℚ) ≤ p.2) := by
  constructor
  · intro p hp
    have := retryGo_sleeps_inv base jitter ar (openRouterFallback model maxRetries)
      maxRetries maxRetries 1 [] (by omega) (by simp) p hp
    exact ⟨this.1, this.2, this.2 ▸ le_max_right _ _⟩
  · intro p hp
    have := retryGo_sleeps_inv base jitter ar (groqFallback model maxRetries)
      maxRetries maxRetries 1 [] (by omega) (by simp) p hp
    exact ⟨this.1, this.2, this.2 ▸ le_max_right _ _⟩

/-- Concrete instantiation of C8: two all-timeout attempts with a jitter
draw of `-3`, whose one sleep is floored to `0.5` seconds. -/
theorem claim_C8_witness :
    ((1, (1 / 2 : ℚ)) ∈
      (OpenRouterClient.chat "m" 2 2 (fun _ => -3) (fun _ => .netTimeout)).sleeps) ∧
    (1 < 2 ∧ (1 / 2 : ℚ) = max ((2 : ℚ) ^ 1 + (fun _ => (-3 : ℚ)) 1) (1 / 2) ∧
      (1 / 2 : ℚ) ≤ (1 / 2 : ℚ)) := by
  have hmem : (1, (1 / 2 : ℚ)) ∈
      (OpenRouterClient.chat "m" 2 2 (fun _ => -3) (fun _ => .netTimeout)).sleeps := by
    have : (OpenRouterClient.chat "m" 2 2 (fun _ => -3) (fun _ => .netTimeout)).sleeps =
        [(1, max ((2 : ℚ) ^ 1 + (-3)) (1 / 2))] := rfl
    rw [this]
    norm_num
  exact ⟨hmem, (claim_C8 "m" 2 2 (fun _ => -3) (fun _ => .netTimeout)).1 (1, 1 / 2) hmem⟩

/-- Claim C4, failing evaluation: a reviewer whose gathered result is the
string `"5"` — valid JSON whose top level is not an object — drives
`data.get("rankings", [])` into an uncaught `AttributeError`: the whole
Stage-2 call aborts and every other reviewer's review is lost, where the
claim requires one `succeeded=false` review for that reviewer and untouched
reviews for the others.  The first reviewer here returned perfectly valid
review JSON and still gets no review. -/
theorem claim_C4_eval :
    conduct_reviews [⟨"openrouter", "a"⟩, ⟨"openrouter", "b"⟩]
        [.str "\x7b\"rankings\":[],\"detailed_scores\":[]\x7d", .str "5"] =
      .error .attributeError ∧
    reviewOne ⟨"openrouter", "b"⟩ (.str "5") = .error .attributeError ∧
    (jsonLoads "5").isSome = true := by
  exact ⟨by rfl, by rfl, by rfl⟩

theorem reviewOne_of_bracket (config : ModelConfig) (s : String)
    (h : startsWithStr s "[" = true) :
    reviewOne config (.str s) = .ok (failedReview config) := by
  rw [reviewOne, if_pos h]

theorem reviewsFrom_ok_getD : ∀ (cs : List ModelConfig) (rs : List GatherResult)
    (out : List Stage2Review) (i : Nat),
    reviewsFrom cs rs = .ok out → i < cs.length → i < rs.length →
    reviewOne (cs.getD i dummyConfig) (rs.getD i dummyResult) =
      .ok (out.getD i dummyReview)
  | [], _, _, i, _, hi, _ => absurd hi (by simp)
  | _ :: _, [], _, i, _, _, hi => absurd hi (by simp)
  | c :: cs, r :: rs, out, i, hok, hi1, hi2 => by
    rw [reviewsFrom] at hok
    cases h1 : reviewOne c r with
    | error e => rw [h1] at hok; simp [Bind.bind, Except.bind] at hok
    | ok rev =>
      rw [h1] at hok
      cases h2 : reviewsFrom cs rs with
      | error e =>
        rw [h2] at hok
        simp [Bind.bind, Except.bind] at hok
      | ok rest =>
        rw [h2] at hok
        simp only [Bind.bind, Except.bind, pure, Except.pure, Except.ok.injEq] at hok
        subst hok
        cases i with
        | zero => simpa using h1
        | succ j =>
          simp only [List.getD_cons_succ]
          exact reviewsFrom_ok_getD cs rs rest j h2 (by simpa using hi1) (by simpa using hi2)

/-- Claim C10: the Stage-2 failure-marker test on a gathered string result
is solely `startswith("[")`: any such string — including a syntactically
valid top-level JSON array — yields, without any parse attempt, a review
with `succeeded=false` and empty rankings and detailed scores for that
reviewer, both per reviewer and at whichever position of a completed
`conduct_reviews` call it occurs. -/
theorem claim_C10 :
    (∀ (config : ModelConfig) (s : String), startsWithStr s "[" = true →
      reviewOne config (.str s) = .ok (failedReview config)) ∧
    (∀ (cs : List ModelConfig) (rs : List GatherResult) (out : List Stage2Review)
      (i : Nat) (s : String),
      conduct_reviews cs rs = .ok out → i < cs.length → i < rs.length →
      rs.getD i dummyResult = .str s → startsWithStr s "[" = true →
      out.getD i dummyReview = failedReview (cs.getD i dummyConfig)) := by
  refine ⟨reviewOne_of_bracket, fun cs rs out i s hok hi1 hi2 hres hbr => ?_⟩
  have h := reviewsFrom_ok_getD cs rs out i hok hi1 hi2
  rw [hres, reviewOne_of_bracket _ _ hbr] at h
  exact (Except.ok.injEq _ _ |>.mp h.symm)

/-- Concrete instantiation of C10: a reviewer answering with the valid JSON
array `"[1, 2]"` is marked failed without parsing. -/
theorem claim_C10_witness :
    reviewOne ⟨"openrouter", "m"⟩ (.str "[1, 2]") =
      .ok (failedReview ⟨"openrouter", "m"⟩) ∧
    (jsonLoads "[1, 2]").isSome = true := by
  exact ⟨claim_C10.1 ⟨"openrouter", "m"⟩ "[1, 2]" (by decide), by decide⟩

/-! ## Helper lemmas about substring containment and the fence scan -/

theorem containsCL_of_prefixCL {pat s : List Char} (h : isPrefixCL pat s = true) :
    containsCL pat s = true := by
  cases s with
  | nil => simpa [containsCL] using h
  | cons c rest => simp [containsCL, h]

theorem containsCL_cons_false {pat : List Char} {c : Char} {rest : List Char}
    (h : containsCL pat (c :: rest) = false) :
    isPrefixCL pat (c :: rest) = false ∧ containsCL pat rest = false := by
  rw [containsCL] at h
  exact Bool.or_eq_false_iff.mp h

theorem containsCL_dropWhile_false (p : Char → Bool) {pat : List Char} :
    ∀ {l : List Char}, containsCL pat l = false →
      containsCL pat (l.dropWhile p) = false := by
  intro l
  induction l with
  | nil => intro h; simpa using h
  | cons c rest ih =>
    intro h
    have h2 := containsCL_cons_false h
    rw [List.dropWhile_cons]
    by_cases hc : p c
    · simp only [hc, if_true]
      exact ih h2.2
    · simp only [hc, if_false]
      exact h

theorem prefix_junction_false : ∀ (cs : List Char), containsCL triBT cs = false →
    ∀ (rest : List Char), isPrefixCL triBT (cs ++ '\n' :: rest) = false
  | [], _, rest => by
    simp [triBT, isPrefixCL, show (btick == '\n') = false from by decide]
  | [a], _, rest => by
    simp [triBT, isPrefixCL, show (btick == '\n') = false from by decide]
  | [a, b], _, rest => by
    simp [triBT, isPrefixCL, show (btick == '\n') = false from by decide]
  | a :: b :: c :: cs', h, rest => by
    have hpre : isPrefixCL triBT (a :: b :: c :: cs') = false := by
      cases hp : isPrefixCL triBT (a :: b :: c :: cs') with
      | false => rfl
      | true => rw [containsCL_of_prefixCL hp] at h; exact Bool.noConfusion h
    simp only [List.cons_append, triBT, isPrefixCL, Bool.and_true] at hpre ⊢
    exact hpre

theorem matchFenceOpen_eq_none {cs : List Char} (h : isPrefixCL triBT cs = false) :
    matchFenceOpen cs = none := by
  match cs with
  | [] => rfl
  | [a] => rfl
  | [a, b] => rfl
  | a :: b :: c :: rest =>
    by_cases ha : a = btick
    · by_cases hb : b = btick
      · by_cases hc2 : c = btick
        · rw [show isPrefixCL triBT (a :: b :: c :: rest) = true from by
            simp [triBT, isPrefixCL, ha, hb, hc2]] at h
          exact Bool.noConfusion h
        · simp [matchFenceOpen, hc2]
      · simp [matchFenceOpen, hb]
    · simp [matchFenceOpen, ha]

theorem closeAfterWS_eq_none {cs : List Char} (h : isPrefixCL triBT cs = false) :
    closeAfterWS cs = none := by
  match cs with
  | [] => rfl
  | [a] => rfl
  | [a, b] => rfl
  | a :: b :: c :: rest =>
    by_cases ha : a = btick
    · by_cases hb : b = btick
      · by_cases hc2 : c = btick
        · rw [show isPrefixCL triBT (a :: b :: c :: rest) = true from by
            simp [triBT, isPrefixCL, ha, hb, hc2]] at h
          exact Bool.noConfusion h
        · simp [closeAfterWS, hc2]
      · simp [closeAfterWS, hb]
    · simp [closeAfterWS, ha]

theorem dropWS_snd : ∀ (b : Bool) (l : List Char),
    (dropWS b l).2 = l.dropWhile isWSChar
  | _, [] => rfl
  | b, c :: cs => by
    rw [dropWS, List.dropWhile_cons]
    by_cases hc : isWSChar c
    · simp only [hc, if_true]
      exact dropWS_snd (c == '\n') cs
    · simp [hc]

theorem matchFenceClose_eq_none {cs : List Char} (h : containsCL triBT cs = false) :
    matchFenceClose cs = none := by
  rw [matchFenceClose, dropWS_snd]
  apply closeAfterWS_eq_none
  cases hp : isPrefixCL triBT (cs.dropWhile isWSChar) with
  | false => rfl
  | true =>
    have h1 := containsCL_of_prefixCL hp
    have h2 := containsCL_dropWhile_false isWSChar h
    rw [h1] at h2
    exact Bool.noConfusion h2

theorem dropWhile_append_ne_nil (p : Char → Bool) :
    ∀ (l t : List Char), l.dropWhile p ≠ [] →
      (l ++ t).dropWhile p = l.dropWhile p ++ t
  | [], _, h => absurd rfl h
  | c :: cs, t, h => by
    rw [List.cons_append, List.dropWhile_cons, List.dropWhile_cons]
    rw [List.dropWhile_cons] at h
    by_cases hc : p c
    · simp only [hc, if_true] at h ⊢
      exact dropWhile_append_ne_nil p cs t h
    · simp [hc]

theorem matchFenceClose_junction_none {cs0 : List Char}
    (h : containsCL triBT cs0 = false) (hne : cs0.dropWhile isWSChar ≠ []) :
    matchFenceClose (cs0 ++ '\n' :: triBT) = none := by
  rw [matchFenceClose, dropWS_snd, dropWhile_append_ne_nil _ _ _ hne]
  apply closeAfterWS_eq_none
  exact prefix_junction_false _ (containsCL_dropWhile_false isWSChar h) triBT

theorem fenceSubGo_nil (fuel : Nat) (b : Bool) : fenceSubGo fuel b [] = [] := by
  cases fuel <;> rfl

theorem dropWhile_ne_nil_of_getLast {l : List Char} (hne : l ≠ [])
    (hl : ∀ c ∈ l.getLast?, isWSChar c = false) : l.dropWhile isWSChar ≠ [] := by
  intro hnil
  have hall := List.dropWhile_eq_nil_iff.mp hnil
  have hlast := List.getLast?_eq_getLast_of_ne_nil hne
  have hmem : l.getLast hne ∈ l := List.getLast_mem hne
  have hfalse := hl (l.getLast hne) (by rw [Option.mem_def, hlast])
  rw [hall _ hmem] at hfalse
  exact Bool.noConfusion hfalse

theorem getLast?_ws_tail {c : Char} {cs : List Char}
    (hl : ∀ x ∈ (c :: cs).getLast?, isWSChar x = false) :
    ∀ x ∈ cs.getLast?, isWSChar x = false :=
  fun x hx => hl x (List.mem_getLast?_cons hx)

/-- The scan leaves an inert text untouched: a text with no triple backtick
matches neither alternative at any position. -/
theorem scanB : ∀ (cs : List Char) (fuel : Nat) (b : Bool),
    cs.length ≤ fuel → containsCL triBT cs = false →
    fenceSubGo fuel b cs = cs := by
  intro cs
  induction cs with
  | nil => intro fuel b _ _; exact fenceSubGo_nil fuel b
  | cons c rest ih =>
    intro fuel b hfuel hcont
    obtain ⟨f, rfl⟩ : ∃ f, fuel = f + 1 := ⟨fuel - 1, by simp at hfuel; omega⟩
    rw [fenceSubGo]
    have hopen := matchFenceOpen_eq_none (containsCL_cons_false hcont).1
    have hclose := matchFenceClose_eq_none hcont
    have hrec := ih f (c == '\n') (by simp at hfuel; omega) (containsCL_cons_false hcont).2
    cases b <;> simp [hopen, hclose, hrec]

/-- The scan consumes a trailing `"\n```"` close fence and nothing else out
of an inert text whose last character is not whitespace. -/
theorem scanA : ∀ (cs0 : List Char) (fuel : Nat) (b : Bool),
    cs0.length + 4 ≤ fuel → containsCL triBT cs0 = false →
    (∀ c ∈ cs0.getLast?, isWSChar c = false) →
    fenceSubGo fuel b (cs0 ++ '\n' :: triBT) = cs0 := by
  intro cs0
  induction cs0 with
  | nil =>
    intro fuel b hfuel _ _
    obtain ⟨f, rfl⟩ : ∃ f, fuel = f + 1 := ⟨fuel - 1, by omega⟩
    rw [List.nil_append, fenceSubGo]
    have hopen : matchFenceOpen ('\n' :: triBT) = none := by decide
    have hclose : matchFenceClose ('\n' :: triBT) = some (false, []) := by decide
    cases b <;> simp [hopen, hclose, fenceSubGo_nil]
  | cons c cs0' ih =>
    intro fuel b hfuel hcont hlast
    obtain ⟨f, rfl⟩ : ∃ f, fuel = f + 1 := ⟨fuel - 1, by omega⟩
    rw [List.cons_append, fenceSubGo]
    have hopen : matchFenceOpen (c :: (cs0' ++ '\n' :: triBT)) = none := by
      rw [← List.cons_append]
      exact matchFenceOpen_eq_none (prefix_junction_false _ hcont triBT)
    have hclose : matchFenceClose (c :: (cs0' ++ '\n' :: triBT)) = none := by
      rw [← List.cons_append]
      exact matchFenceClose_junction_none hcont
        (dropWhile_ne_nil_of_getLast (by simp) hlast)
    have hf' : cs0'.length + 4 ≤ f := by simp at hfuel; omega
    have hrec := ih f (c == '\n') hf' (containsCL_cons_false hcont).2
      (getLast?_ws_tail hlast)
    cases b <;> simp [hopen, hclose, hrec]

theorem stripJsonTag_head_ne {c : Char} (cs : List Char) (h : ¬c = 'j') :
    stripJsonTag (c :: cs) = c :: cs := by
  match cs with
  | [] => rfl
  | [x] => rfl
  | [x, y] => rfl
  | x :: y :: z :: rest => simp [stripJsonTag, h]

theorem stripCL_eq_self {l : List Char}
    (hh : ∀ c ∈ l.head?, isWSChar c = false)
    (hl : ∀ c ∈ l.getLast?, isWSChar c = false) : stripCL l = l := by
  cases l with
  | nil => rfl
  | cons c cs =>
    have hc : isWSChar c = false := hh c (by rw [Option.mem_def]; rfl)
    have h1 : (c :: cs).dropWhile isWSChar = c :: cs :=
      List.dropWhile_cons_of_neg (by simp [hc])
    rw [stripCL, h1]
    cases hrevl : (c :: cs).reverse with
    | nil => simp at hrevl
    | cons d ds =>
      have hd : isWSChar d = false := by
        apply hl
        rw [Option.mem_def, ← List.head?_reverse, hrevl]
        rfl
      rw [List.dropWhile_cons_of_neg (by simp [hd]), ← hrevl,
        List.reverse_reverse]

theorem pyStrip_of_ends (W : String)
    (hh : ∀ c ∈ W.data.head?, isWSChar c = false)
    (hl : ∀ c ∈ W.data.getLast?, isWSChar c = false) : pyStrip W = W := by
  apply String.ext
  exact stripCL_eq_self hh hl

theorem wrapped_data_tag (J : String) : ("```json\n" ++ J ++ "\n```").data =
    btick :: btick :: btick :: 'j' :: 's' :: 'o' :: 'n' :: '\n' ::
      (J.data ++ '\n' :: triBT) := by
  rw [String.data_append, String.data_append,
    show ("```json\n" : String).data = [btick, btick, btick, 'j', 's', 'o', 'n', '\n']
      from by decide,
    show ("\n```" : String).data = '\n' :: triBT from by decide]
  simp

theorem wrapped_data_notag (J : String) : ("```\n" ++ J ++ "\n```").data =
    btick :: btick :: btick :: '\n' :: (J.data ++ '\n' :: triBT) := by
  rw [String.data_append, String.data_append,
    show ("```\n" : String).data = [btick, btick, btick, '\n'] from by decide,
    show ("\n```" : String).data = '\n' :: triBT from by decide]
  simp

theorem startsWith_brace_data {J : String} (hobj : startsWithStr J "\x7b" = true) :
    ∃ t, J.data = '{' :: t := by
  rw [startsWithStr] at hobj
  cases hd : J.data with
  | nil => rw [hd] at hobj; exact absurd hobj (by decide)
  | cons c t =>
    rw [hd] at hobj
    simp [isPrefixCL] at hobj
    subst hobj
    exact ⟨t, rfl⟩

theorem getLast?_wrapped {J : String} {pre : List Char} {W : String}
    (hW : W.data = pre ++ (J.data ++ '\n' :: triBT)) :
    W.data.getLast? = some btick := by
  rw [hW, List.getLast?_append_of_ne_nil _ (by simp), List.getLast?_append_cons]
  decide

theorem stripFence_data (s : String) :
    (stripFence s).data = fenceSubGo s.data.length true s.data := rfl

theorem stripFence_wrapped_tag (J : String) (jrest : List Char)
    (hJ : J.data = '{' :: jrest)
    (hcont : containsCL triBT J.data = false)
    (hlast : ∀ c ∈ J.data.getLast?, isWSChar c = false) :
    stripFence ("```json\n" ++ J ++ "\n```") = J := by
  apply String.ext
  rw [stripFence_data, wrapped_data_tag]
  have hlen : (btick :: btick :: btick :: 'j' :: 's' :: 'o' :: 'n' :: '\n' ::
      (J.data ++ '\n' :: triBT)).length = (J.data.length + 11) + 1 := by
    simp only [triBT, List.length_cons, List.length_append, List.length_nil]
  rw [hlen, fenceSubGo]
  have hopen : matchFenceOpen (btick :: btick :: btick :: 'j' :: 's' :: 'o' :: 'n' :: '\n' ::
      (J.data ++ '\n' :: triBT)) = some (true, J.data ++ '\n' :: triBT) := by
    rw [matchFenceOpen, if_pos (by decide)]
    rw [show stripJsonTag ('j' :: 's' :: 'o' :: 'n' :: '\n' :: (J.data ++ '\n' :: triBT)) =
      '\n' :: (J.data ++ '\n' :: triBT) from by rw [stripJsonTag, if_pos (by decide)]]
    rw [dropWS, if_pos (by decide), hJ, List.cons_append, dropWS, if_neg (by decide),
      show ('\n' == '\n') = true from by decide, ← List.cons_append, ← hJ]
  simp only [hopen, if_true]
  exact scanA J.data (J.data.length + 11) true (by omega) hcont hlast

theorem stripFence_wrapped_notag (J : String) (jrest : List Char)
    (hJ : J.data = '{' :: jrest)
    (hcont : containsCL triBT J.data = false)
    (hlast : ∀ c ∈ J.data.getLast?, isWSChar c = false) :
    stripFence ("```\n" ++ J ++ "\n```") = J := by
  apply String.ext
  rw [stripFence_data, wrapped_data_notag]
  have hlen : (btick :: btick :: btick :: '\n' ::
      (J.data ++ '\n' :: triBT)).length = (J.data.length + 7) + 1 := by
    simp only [triBT, List.length_cons, List.length_append, List.length_nil]
  rw [hlen, fenceSubGo]
  have hopen : matchFenceOpen (btick :: btick :: btick :: '\n' ::
      (J.data ++ '\n' :: triBT)) = some (true, J.data ++ '\n' :: triBT) := by
    rw [matchFenceOpen, if_pos (by decide)]
    rw [stripJsonTag_head_ne _ (by decide)]
    rw [dropWS, if_pos (by decide), hJ, List.cons_append, dropWS, if_neg (by decide),
      show ('\n' == '\n') = true from by decide, ← List.cons_append, ← hJ]
  simp only [hopen, if_true]
  exact scanA J.data (J.data.length + 7) true (by omega) hcont hlast

theorem reviewOne_str_congr (config : ModelConfig) {s t : String}
    (hs : startsWithStr s "[" = false) (ht : startsWithStr t "[" = false)
    (h : stripFence (pyStrip s) = stripFence (pyStrip t)) :
    reviewOne config (.str s) = reviewOne config (.str t) := by
  simp only [reviewOne, hs, ht, Bool.false_eq_true, if_false, h]

/-- Claim C9: a reviewer answer is parsed identically raw or wrapped in a
markdown fence (with or without the `json` tag), for any single-object JSON
text `J` (it starts with `{`, ends on a non-whitespace character and
contains no triple backtick of its own); and concretely the fenced empty
review object parses to a succeeded review with empty rankings and detailed
scores. -/
theorem claim_C9 :
    (∀ (config : ModelConfig) (J : String),
      startsWithStr J "\x7b" = true →
      strContains J "```" = false →
      (∀ c ∈ J.data.getLast?, isWSChar c = false) →
      reviewOne config (.str ("```json\n" ++ J ++ "\n```")) =
        reviewOne config (.str J) ∧
      reviewOne config (.str ("```\n" ++ J ++ "\n```")) =
        reviewOne config (.str J)) ∧
    reviewOne ⟨"openrouter", "rev"⟩
        (.str "```json\n\x7b\"rankings\":[],\"detailed_scores\":[]\x7d\n```") =
      .ok ⟨"rev", "openrouter", [], [], true⟩ := by
  constructor
  · intro config J hobj hfence hlast
    obtain ⟨jrest, hJ⟩ := startsWith_brace_data hobj
    have hcont : containsCL triBT J.data = false := by
      rw [show triBT = "```".data from by decide]
      exact hfence
    have hbJ : startsWithStr J "[" = false := by
      rw [startsWithStr, hJ]
      simp [isPrefixCL, show ("[" : String).data = ['['] from by decide,
        show ('[' == '{') = false from by decide]
    have hpsJ : pyStrip J = J := by
      apply pyStrip_of_ends
      · intro c hc
        rw [hJ] at hc
        simp at hc
        subst hc
        decide
      · exact hlast
    have hsfJ : stripFence J = J := by
      apply String.ext
      exact scanB J.data J.data.length true le_rfl hcont
    constructor
    · have hdata := wrapped_data_tag J
      have happ : ("```json\n" ++ J ++ "\n```").data =
          [btick, btick, btick, 'j', 's', 'o', 'n', '\n'] ++ (J.data ++ '\n' :: triBT) := by
        rw [hdata]; simp
      have hbW : startsWithStr ("```json\n" ++ J ++ "\n```") "[" = false := by
        rw [startsWithStr, hdata]
        simp [isPrefixCL, show ("[" : String).data = ['['] from by decide,
          show ('[' == btick) = false from by decide]
      have hpsW : pyStrip ("```json\n" ++ J ++ "\n```") =
          ("```json\n" ++ J ++ "\n```") := by
        apply pyStrip_of_ends
        · intro c hc; rw [hdata] at hc; simp at hc; subst hc; decide
        · intro c hc; rw [getLast?_wrapped happ] at hc; simp at hc; subst hc; decide
      have hsfW := stripFence_wrapped_tag J jrest hJ hcont hlast
      apply reviewOne_str_congr config hbW hbJ
      rw [hpsW, hsfW, hpsJ, hsfJ]
    · have hdata := wrapped_data_notag J
      have happ : ("```\n" ++ J ++ "\n```").data =
          [btick, btick, btick, '\n'] ++ (J.data ++ '\n' :: triBT) := by
        rw [hdata]; simp
      have hbW : startsWithStr ("```\n" ++ J ++ "\n```") "[" = false := by
        rw [startsWithStr, hdata]
        simp [isPrefixCL, show ("[" : String).data = ['['] from by decide,
          show ('[' == btick) = false from by decide]
      have hpsW : pyStrip ("```\n" ++ J ++ "\n```") = ("```\n" ++ J ++ "\n```") := by
        apply pyStrip_of_ends
        · intro c hc; rw [hdata] at hc; simp at hc; subst hc; decide
        · intro c hc; rw [getLast?_wrapped happ] at hc; simp at hc; subst hc; decide
      have hsfW := stripFence_wrapped_notag J jrest hJ hcont hlast
      apply reviewOne_str_congr config hbW hbJ
      rw [hpsW, hsfW, hpsJ, hsfJ]
  · rfl

/-- Concrete instantiation of C9: end-to-end scenario B's reviewer output,
fenced versus raw. -/
theorem claim_C9_witness :
    reviewOne ⟨"openrouter", "rev"⟩
        (.str ("```json\n" ++ "\x7b\"rankings\":[],\"detailed_scores\":[]\x7d" ++ "\n```")) =
      reviewOne ⟨"openrouter", "rev"⟩
        (.str "\x7b\"rankings\":[],\"detailed_scores\":[]\x7d") := by
  refine (claim_C9.1 ⟨"openrouter", "rev"⟩
    "\x7b\"rankings\":[],\"detailed_scores\":[]\x7d" (by decide) (by decide) ?_).1
  intro c hc
  rw [show ("\x7b\"rankings\":[],\"detailed_scores\":[]\x7d" : String).data.getLast? =
    some '\x7d' from by decide] at hc
  simp at hc
  subst hc
  decide

end Boule
